import Mathlib

/-!
# Verification of the Athena query-result pager

Shallow embedding of `src/index.ts` (class `AthenaQueryResultPager`).

Modelling decisions:

* The row type of the wire result set is a type parameter `ρ` (the raw
  `ParsedRow` shape is opaque to the pager); a custom row parser produces
  values of a second parameter `τ`.
* The remote service client (`client.send` with a `GetQueryResultsCommand`)
  is modelled as a function from the command input to `Except ε` of the
  command output; a thrown error is the `Except.error` case.  The pager never
  mutates the client, so a pure function is faithful.
* The mutable `parser` field of the pager is threaded explicitly: operations
  that mutate it return the updated pager alongside their result.
* The `async`/`await` structure carries no observable behaviour beyond
  sequencing (single-threaded cooperative scheduling), so operations are
  plain functions.
* The `AsyncGenerator` loops of `iteratePages` / `iteratePagesWith` are given
  trace semantics: a fuel-indexed function producing the list of observable
  events (fetch requests issued, pages yielded, a terminal failure).  The
  fuel is an upper bound on loop iterations only; theorems show the trace is
  independent of the fuel once it is large enough, which is how termination
  is expressed.
* JavaScript truthiness of the loop condition `while (nextToken)` is modelled
  exactly: `undefined` and the empty string are falsy, every other string is
  truthy (`tokenTruthy`).
-/

/-- Default maximum number of rows per page (`DEFAULT_MAX_RESULTS`). -/
def DEFAULT_MAX_RESULTS : Nat := 1000

/-- Default query result type (`DEFAULT_QUERY_RESULT_TYPE`). -/
def DEFAULT_QUERY_RESULT_TYPE : String := "DATA_ROWS"

/-- The request object built by `fetchPage` / `fetchPageWith`: it contains
exactly the fields `QueryExecutionId`, `NextToken` and `MaxResults` and
nothing else (in particular no result-format field). -/
structure GetQueryResultsCommandInput where
  QueryExecutionId : String
  NextToken : Option String
  MaxResults : Nat
  deriving DecidableEq, Repr

/-- The tabular payload of one service response, as the pager hands it to the
row-set parser: the rows in service order (header row included when the
service sent one).  Cell decoding happens inside the external parser and is
opaque to the pager, so a row is just a value of the parameter `ρ`. -/
structure ResultSet (ρ : Type) where
  Rows : List ρ
  deriving DecidableEq, Repr

/-- One service response: the tabular result set plus the optional
continuation token (`NextToken`). -/
structure GetQueryResultsCommandOutput (ρ : Type) where
  ResultSet : ResultSet ρ
  NextToken : Option String
  deriving DecidableEq, Repr

/-- Modelled from the spec: the Row-Set Parser (external package
`athena-query-result-parser`) is not part of this repository's sources.  Per
the spec it is stateful, tracking only whether this instance has already
consumed the header row of the current query. -/
structure AthenaQueryResultParser where
  headerSeen : Bool
  deriving DecidableEq, Repr

/-- A freshly constructed parser: header not yet seen. -/
def AthenaQueryResultParser.new : AthenaQueryResultParser := ⟨false⟩

/-- Modelled from the spec: `parseResultSet` returns the page's rows in
service order, skipping the single header row iff this instance has not yet
consumed one, and records that the header has now been consumed. -/
def AthenaQueryResultParser.parseResultSet {ρ : Type}
    (ps : AthenaQueryResultParser) (rs : ResultSet ρ) :
    List ρ × AthenaQueryResultParser :=
  if ps.headerSeen then (rs.Rows, ps) else (rs.Rows.drop 1, ⟨true⟩)

/-- Modelled from the spec: `parseResultSetWith` behaves like
`parseResultSet` and then applies the caller-supplied row parser to each raw
row in order; the first row-parser error aborts and propagates. -/
def AthenaQueryResultParser.parseResultSetWith {ρ ε τ : Type}
    (ps : AthenaQueryResultParser) (rs : ResultSet ρ)
    (rowParser : ρ → Except ε τ) :
    Except ε (List τ) × AthenaQueryResultParser :=
  let pr := ps.parseResultSet rs
  (pr.1.mapM rowParser, pr.2)

/-- Result of fetching and parsing one page (`PageResult<T>`). -/
structure PageResult (T : Type) where
  rows : List T
  nextToken : Option String
  rowCount : Nat
  deriving DecidableEq, Repr

/-- Constructor options (`PagerOptions`): both fields optional. -/
structure PagerOptions where
  maxResults : Option Nat
  queryResultType : Option String
  deriving DecidableEq, Repr

/-- The pager (`class AthenaQueryResultPager`), with its client modelled as
the `send` function, its resolved options, and its one piece of mutable
state, the parser instance. -/
structure AthenaQueryResultPager (ρ ε : Type) where
  send : GetQueryResultsCommandInput → Except ε (GetQueryResultsCommandOutput ρ)
  maxResults : Nat
  queryResultType : String
  parser : AthenaQueryResultParser

/-- The constructor: applies the option defaults and creates a fresh
parser. -/
def AthenaQueryResultPager.make {ρ ε : Type}
    (send : GetQueryResultsCommandInput → Except ε (GetQueryResultsCommandOutput ρ))
    (options : PagerOptions) : AthenaQueryResultPager ρ ε :=
  { send := send
    maxResults := options.maxResults.getD DEFAULT_MAX_RESULTS
    queryResultType := options.queryResultType.getD DEFAULT_QUERY_RESULT_TYPE
    parser := AthenaQueryResultParser.new }

/-- `static hasNextPage`: `pageResult.nextToken !== undefined`. -/
def AthenaQueryResultPager.hasNextPage {T : Type} (pageResult : PageResult T) : Bool :=
  pageResult.nextToken.isSome

/-- `reset()`: replaces the parser with a fresh instance. -/
def AthenaQueryResultPager.reset {ρ ε : Type} (p : AthenaQueryResultPager ρ ε) :
    AthenaQueryResultPager ρ ε :=
  { p with parser := AthenaQueryResultParser.new }

/-- `fetchPage`: builds the request, sends it, parses the result set with the
shared parser, and shapes the page result.  Returns the updated pager (its
parser may have consumed the header); a service error is propagated
unchanged and leaves the pager untouched. -/
def AthenaQueryResultPager.fetchPage {ρ ε : Type} (p : AthenaQueryResultPager ρ ε)
    (queryExecutionId : String) (nextToken : Option String) :
    Except ε (PageResult ρ) × AthenaQueryResultPager ρ ε :=
  let input : GetQueryResultsCommandInput :=
    { QueryExecutionId := queryExecutionId
      NextToken := nextToken
      MaxResults := p.maxResults }
  match p.send input with
  | Except.error e => (Except.error e, p)
  | Except.ok response =>
    let pr := p.parser.parseResultSet response.ResultSet
    (Except.ok { rows := pr.1, nextToken := response.NextToken, rowCount := pr.1.length },
     { p with parser := pr.2 })

/-- `fetchPageWith`: identical request mechanics to `fetchPage`, converting
rows via the caller-supplied row parser; a row-parser error is propagated
unchanged. -/
def AthenaQueryResultPager.fetchPageWith {ρ ε τ : Type} (p : AthenaQueryResultPager ρ ε)
    (queryExecutionId : String) (rowParser : ρ → Except ε τ) (nextToken : Option String) :
    Except ε (PageResult τ) × AthenaQueryResultPager ρ ε :=
  let input : GetQueryResultsCommandInput :=
    { QueryExecutionId := queryExecutionId
      NextToken := nextToken
      MaxResults := p.maxResults }
  match p.send input with
  | Except.error e => (Except.error e, p)
  | Except.ok response =>
    let pr := p.parser.parseResultSetWith response.ResultSet rowParser
    match pr.1 with
    | Except.error e => (Except.error e, { p with parser := pr.2 })
    | Except.ok rows =>
      (Except.ok { rows := rows, nextToken := response.NextToken, rowCount := rows.length },
       { p with parser := pr.2 })

/-- One observable event of a pagination generator: a request issued to the
service, a page yielded to the consumer, or an error propagated out of the
generator. -/
inductive Event (α ε : Type) where
  | fetch (input : GetQueryResultsCommandInput)
  | yielded (page : PageResult α)
  | failed (e : ε)
  deriving DecidableEq, Repr

/-- JavaScript truthiness of the `while (nextToken)` condition: `undefined`
and the empty string are falsy, every other string is truthy. -/
def tokenTruthy : Option String → Bool
  | none => false
  | some s => !s.isEmpty

/-- The `do { … } while (nextToken)` loop body of `iteratePages`, as a trace
of events.  The fuel bounds the number of iterations; out of fuel the trace
just stops (theorems only ever use fuel at least the page count, where the
trace is fuel-independent). -/
def iteratePagesAux {ρ ε : Type} :
    AthenaQueryResultPager ρ ε → String → Nat → Option String → List (Event ρ ε)
  | _, _, 0, _ => []
  | p, qid, fuel + 1, tok =>
    match p.fetchPage qid tok with
    | (Except.error e, _) =>
      [Event.fetch ⟨qid, tok, p.maxResults⟩, Event.failed e]
    | (Except.ok page, p2) =>
      Event.fetch ⟨qid, tok, p.maxResults⟩ ::
      Event.yielded page ::
      (if tokenTruthy page.nextToken then iteratePagesAux p2 qid fuel page.nextToken
       else [])

/-- `iteratePages(queryExecutionId)`: the loop started with no continuation
token. -/
def AthenaQueryResultPager.iteratePagesTrace {ρ ε : Type} (p : AthenaQueryResultPager ρ ε)
    (queryExecutionId : String) (fuel : Nat) : List (Event ρ ε) :=
  iteratePagesAux p queryExecutionId fuel none

/-- The `do { … } while (nextToken)` loop of `iteratePagesWith`, as a trace
of events (same control flow as `iteratePagesAux`, fetching via
`fetchPageWith`). -/
def iteratePagesWithAux {ρ ε τ : Type} :
    AthenaQueryResultPager ρ ε → String → (ρ → Except ε τ) → Nat → Option String →
      List (Event τ ε)
  | _, _, _, 0, _ => []
  | p, qid, rowParser, fuel + 1, tok =>
    match p.fetchPageWith qid rowParser tok with
    | (Except.error e, _) =>
      [Event.fetch ⟨qid, tok, p.maxResults⟩, Event.failed e]
    | (Except.ok page, p2) =>
      Event.fetch ⟨qid, tok, p.maxResults⟩ ::
      Event.yielded page ::
      (if tokenTruthy page.nextToken then iteratePagesWithAux p2 qid rowParser fuel page.nextToken
       else [])

/-- `iteratePagesWith(queryExecutionId, rowParser)`: the loop started with no
continuation token. -/
def AthenaQueryResultPager.iteratePagesWithTrace {ρ ε τ : Type} (p : AthenaQueryResultPager ρ ε)
    (queryExecutionId : String) (rowParser : ρ → Except ε τ) (fuel : Nat) :
    List (Event τ ε) :=
  iteratePagesWithAux p queryExecutionId rowParser fuel none

/-- The pages yielded along a trace, in order. -/
def yieldsOf {α ε : Type} : List (Event α ε) → List (PageResult α)
  | [] => []
  | Event.yielded pg :: rest => pg :: yieldsOf rest
  | Event.fetch _ :: rest => yieldsOf rest
  | Event.failed _ :: rest => yieldsOf rest

/-- The fetch requests issued along a trace, in order. -/
def fetchesOf {α ε : Type} : List (Event α ε) → List GetQueryResultsCommandInput
  | [] => []
  | Event.fetch i :: rest => i :: fetchesOf rest
  | Event.yielded _ :: rest => fetchesOf rest
  | Event.failed _ :: rest => fetchesOf rest

/-- The pages produced by `iteratePagesWith`, in order. -/
def AthenaQueryResultPager.iteratePagesWithList {ρ ε τ : Type} (p : AthenaQueryResultPager ρ ε)
    (queryExecutionId : String) (rowParser : ρ → Except ε τ) (fuel : Nat) :
    List (PageResult τ) :=
  yieldsOf (p.iteratePagesWithTrace queryExecutionId rowParser fuel)

/-- The inner `for (const row of page.rows) yield row;` loop of
`iterateRows`, iterated over the produced pages. -/
def yieldRowsOf {τ : Type} : List (PageResult τ) → List τ
  | [] => []
  | pg :: rest => pg.rows ++ yieldRowsOf rest

/-- `iterateRows(queryExecutionId, rowParser)`: iterates the pages of
`iteratePagesWith` and yields each page's rows in order. -/
def AthenaQueryResultPager.iterateRowsList {ρ ε τ : Type} (p : AthenaQueryResultPager ρ ε)
    (queryExecutionId : String) (rowParser : ρ → Except ε τ) (fuel : Nat) : List τ :=
  yieldRowsOf (p.iteratePagesWithList queryExecutionId rowParser fuel)

/-! ## Service chains and expected traces -/

/-- `ServesChain send qid mr t outs`: starting from request token `t`, the
service answers each request in the chain with the corresponding page of
`outs`; every page but the last carries a truthy (present, nonempty)
continuation token that is the token of the next request, and the last
page's token is not truthy. -/
inductive ServesChain {ρ ε : Type}
    (send : GetQueryResultsCommandInput → Except ε (GetQueryResultsCommandOutput ρ))
    (qid : String) (mr : Nat) :
    Option String → List (GetQueryResultsCommandOutput ρ) → Prop where
  | last (t : Option String) (out : GetQueryResultsCommandOutput ρ)
      (hsend : send ⟨qid, t, mr⟩ = Except.ok out)
      (hstop : tokenTruthy out.NextToken = false) :
      ServesChain send qid mr t [out]
  | step (t : Option String) (out : GetQueryResultsCommandOutput ρ)
      (rest : List (GetQueryResultsCommandOutput ρ))
      (hsend : send ⟨qid, t, mr⟩ = Except.ok out)
      (hcont : tokenTruthy out.NextToken = true)
      (htail : ServesChain send qid mr out.NextToken rest) :
      ServesChain send qid mr t (out :: rest)

/-- The event trace the pagination loop is expected to produce on a chain:
for each page, the fetch request followed by the yielded page, with the
parser state threaded through. -/
def expectedTrace {ρ ε : Type} (qid : String) (mr : Nat) :
    AthenaQueryResultParser → Option String → List (GetQueryResultsCommandOutput ρ) →
      List (Event ρ ε)
  | _, _, [] => []
  | ps, t, out :: rest =>
    Event.fetch ⟨qid, t, mr⟩ ::
    Event.yielded ⟨(ps.parseResultSet out.ResultSet).1, out.NextToken,
                   (ps.parseResultSet out.ResultSet).1.length⟩ ::
    expectedTrace qid mr (ps.parseResultSet out.ResultSet).2 out.NextToken rest

/-- The page results expected from a chain, with the parser state threaded
through. -/
def expectedPages {ρ : Type} :
    AthenaQueryResultParser → List (GetQueryResultsCommandOutput ρ) → List (PageResult ρ)
  | _, [] => []
  | ps, out :: rest =>
    ⟨(ps.parseResultSet out.ResultSet).1, out.NextToken,
     (ps.parseResultSet out.ResultSet).1.length⟩ ::
    expectedPages (ps.parseResultSet out.ResultSet).2 rest

/-- Strict alternation of fetch and yield events: fetch 1, yield 1, fetch 2,
yield 2, …  A trace equal to the interleaving of its own fetches and yields
issues fetch k+1 only after page k has been yielded. -/
def interleaveFY {α ε : Type} :
    List GetQueryResultsCommandInput → List (PageResult α) → List (Event α ε)
  | [], _ => []
  | _ :: _, [] => []
  | i :: is, pg :: pgs => Event.fetch i :: Event.yielded pg :: interleaveFY is pgs

/-! ## Helper lemmas about single steps -/

theorem fetchPage_ok {ρ ε : Type} (p : AthenaQueryResultPager ρ ε)
    (qid : String) (tok : Option String) (out : GetQueryResultsCommandOutput ρ)
    (h : p.send ⟨qid, tok, p.maxResults⟩ = Except.ok out) :
    p.fetchPage qid tok =
      (Except.ok ⟨(p.parser.parseResultSet out.ResultSet).1, out.NextToken,
                  (p.parser.parseResultSet out.ResultSet).1.length⟩,
       { p with parser := (p.parser.parseResultSet out.ResultSet).2 }) := by
  simp only [AthenaQueryResultPager.fetchPage]
  rw [h]

theorem fetchPage_err {ρ ε : Type} (p : AthenaQueryResultPager ρ ε)
    (qid : String) (tok : Option String) (e : ε)
    (h : p.send ⟨qid, tok, p.maxResults⟩ = Except.error e) :
    p.fetchPage qid tok = (Except.error e, p) := by
  simp only [AthenaQueryResultPager.fetchPage]
  rw [h]

theorem iteratePagesAux_succ_ok {ρ ε : Type} (p p2 : AthenaQueryResultPager ρ ε)
    (qid : String) (fuel : Nat) (tok : Option String) (page : PageResult ρ)
    (h : p.fetchPage qid tok = (Except.ok page, p2)) :
    iteratePagesAux p qid (fuel + 1) tok =
      Event.fetch ⟨qid, tok, p.maxResults⟩ :: Event.yielded page ::
      (if tokenTruthy page.nextToken then iteratePagesAux p2 qid fuel page.nextToken
       else []) := by
  simp only [iteratePagesAux]
  rw [h]

theorem iteratePagesAux_succ_err {ρ ε : Type} (p p2 : AthenaQueryResultPager ρ ε)
    (qid : String) (fuel : Nat) (tok : Option String) (e : ε)
    (h : p.fetchPage qid tok = (Except.error e, p2)) :
    iteratePagesAux p qid (fuel + 1) tok =
      [Event.fetch ⟨qid, tok, p.maxResults⟩, Event.failed e] := by
  simp only [iteratePagesAux]
  rw [h]

/-! ## The pagination loop on a chain -/

theorem iteratePagesAux_chain {ρ ε : Type} {qid : String}
    {send : GetQueryResultsCommandInput → Except ε (GetQueryResultsCommandOutput ρ)}
    {mr : Nat} {t : Option String} {outs : List (GetQueryResultsCommandOutput ρ)}
    (h : ServesChain send qid mr t outs) (qrt : String) :
    ∀ (ps : AthenaQueryResultParser) (fuel : Nat), outs.length ≤ fuel →
      iteratePagesAux (AthenaQueryResultPager.mk send mr qrt ps) qid fuel t =
        expectedTrace qid mr ps t outs := by
  induction h with
  | last t out hsend hstop =>
    intro ps fuel hfuel
    cases fuel with
    | zero => simp at hfuel
    | succ f =>
      rw [iteratePagesAux_succ_ok _ _ _ _ _ _ (fetchPage_ok _ _ _ _ hsend)]
      simp [expectedTrace, hstop]
  | step t out rest hsend hcont htail ih =>
    intro ps fuel hfuel
    cases fuel with
    | zero => simp at hfuel
    | succ f =>
      rw [iteratePagesAux_succ_ok _ _ _ _ _ _ (fetchPage_ok _ _ _ _ hsend)]
      simp only [expectedTrace, hcont, if_true]
      have hlen : rest.length ≤ f := by
        simp only [List.length_cons] at hfuel
        omega
      rw [ih ((ps.parseResultSet out.ResultSet).2) f hlen]

theorem yieldsOf_expectedTrace {ρ ε : Type} (qid : String) (mr : Nat) :
    ∀ (outs : List (GetQueryResultsCommandOutput ρ)) (ps : AthenaQueryResultParser)
      (t : Option String),
      yieldsOf (expectedTrace qid mr ps t outs : List (Event ρ ε)) = expectedPages ps outs := by
  intro outs
  induction outs with
  | nil => intro ps t; simp [expectedTrace, expectedPages, yieldsOf]
  | cons out rest ih =>
    intro ps t
    simp only [expectedTrace, expectedPages, yieldsOf]
    rw [ih]

theorem expectedPages_length {ρ : Type} :
    ∀ (outs : List (GetQueryResultsCommandOutput ρ)) (ps : AthenaQueryResultParser),
      (expectedPages ps outs).length = outs.length := by
  intro outs
  induction outs with
  | nil => intro ps; simp [expectedPages]
  | cons out rest ih => intro ps; simp only [expectedPages, List.length_cons]; rw [ih]

theorem fetchesOf_expectedTrace_length {ρ ε : Type} (qid : String) (mr : Nat) :
    ∀ (outs : List (GetQueryResultsCommandOutput ρ)) (ps : AthenaQueryResultParser)
      (t : Option String),
      (fetchesOf (expectedTrace qid mr ps t outs : List (Event ρ ε))).length = outs.length := by
  intro outs
  induction outs with
  | nil => intro ps t; simp [expectedTrace, fetchesOf]
  | cons out rest ih =>
    intro ps t
    simp only [expectedTrace, fetchesOf, List.length_cons]
    rw [ih]

theorem expectedTrace_interleave {ρ ε : Type} (qid : String) (mr : Nat) :
    ∀ (outs : List (GetQueryResultsCommandOutput ρ)) (ps : AthenaQueryResultParser)
      (t : Option String),
      (expectedTrace qid mr ps t outs : List (Event ρ ε)) =
        interleaveFY (fetchesOf (expectedTrace qid mr ps t outs : List (Event ρ ε)))
          (yieldsOf (expectedTrace qid mr ps t outs : List (Event ρ ε))) := by
  intro outs
  induction outs with
  | nil => intro ps t; simp [expectedTrace, fetchesOf, yieldsOf, interleaveFY]
  | cons out rest ih =>
    intro ps t
    simp only [expectedTrace, fetchesOf, yieldsOf, interleaveFY]
    rw [← ih]

theorem expectedPages_map_nextToken {ρ : Type} :
    ∀ (outs : List (GetQueryResultsCommandOutput ρ)) (ps : AthenaQueryResultParser),
      (expectedPages ps outs).map PageResult.nextToken =
        outs.map GetQueryResultsCommandOutput.NextToken := by
  intro outs
  induction outs with
  | nil => intro ps; simp [expectedPages]
  | cons out rest ih =>
    intro ps
    simp only [expectedPages, List.map_cons]
    rw [ih]

theorem ServesChain_tokens {ρ ε : Type} {qid : String}
    {send : GetQueryResultsCommandInput → Except ε (GetQueryResultsCommandOutput ρ)}
    {mr : Nat} {t : Option String} {outs : List (GetQueryResultsCommandOutput ρ)}
    (h : ServesChain send qid mr t outs) :
    outs ≠ [] ∧
    (∀ out ∈ outs.dropLast, tokenTruthy out.NextToken = true) ∧
    (∀ lo ∈ outs.getLast?, tokenTruthy lo.NextToken = false) := by
  induction h with
  | last t out hsend hstop =>
    refine ⟨by simp, by simp [List.dropLast], ?_⟩
    intro lo hlo
    simp [List.getLast?] at hlo
    rw [← hlo]
    exact hstop
  | step t out rest hsend hcont htail ih =>
    obtain ⟨hne, hdrop, hlast⟩ := ih
    refine ⟨by simp, ?_, ?_⟩
    · intro o ho
      rcases rest with _ | ⟨r, rs⟩
      · exact absurd rfl hne
      · rw [List.dropLast_cons₂] at ho
        cases ho with
        | head => exact hcont
        | tail _ hm => exact hdrop o hm
    · intro lo hlo
      rcases rest with _ | ⟨r, rs⟩
      · exact absurd rfl hne
      · rw [List.getLast?_cons_cons] at hlo
        exact hlast lo hlo

/-! ## Concrete services for counterexamples and witnesses -/

/-- A two-page service chain linked by the empty-string token: the first
request returns a page whose continuation token is the (defined) empty
string, and a request carrying the empty-string token returns a final page
with no token. -/
def emptyTokenSend : GetQueryResultsCommandInput → Except Unit (GetQueryResultsCommandOutput Nat) :=
  fun input =>
    match input.NextToken with
    | none => Except.ok ⟨⟨[0, 1]⟩, some ""⟩
    | some s => if s = "" then Except.ok ⟨⟨[2, 3]⟩, none⟩ else Except.error ()

/-- A pager over `emptyTokenSend` with `maxResults = 2`. -/
def emptyTokenPager : AthenaQueryResultPager Nat Unit :=
  AthenaQueryResultPager.mk emptyTokenSend 2 "DATA_ROWS" AthenaQueryResultParser.new

/-- A regular two-page service chain: the first page carries the nonempty
token `"t1"` which leads to the final, tokenless page. -/
def chainSend2 : GetQueryResultsCommandInput → Except Unit (GetQueryResultsCommandOutput Nat) :=
  fun input =>
    match input.NextToken with
    | none => Except.ok ⟨⟨[0, 1]⟩, some "t1"⟩
    | some s => if s = "t1" then Except.ok ⟨⟨[2, 3]⟩, none⟩ else Except.error ()

/-- A pager over `chainSend2` with `maxResults = 5`. -/
def chainPager2 : AthenaQueryResultPager Nat Unit :=
  AthenaQueryResultPager.mk chainSend2 5 "DATA_ROWS" AthenaQueryResultParser.new

/-! ## C1 -/

/-- C1 (amended: each linking continuation token is additionally required to
be a nonempty string — the `while (nextToken)` loop treats the empty string
as terminal, see the counterexample): over a finite chain of N service pages
in which page i carries a truthy (present, nonempty) continuation token
leading to page i+1 and the last page's token is not truthy,
`iteratePages(queryExecutionId)` yields exactly N page results, in
continuation order, and issues exactly N fetch requests, and the trace is
the strict fetch/yield alternation of its own requests and pages — the
fetch for page k+1 is issued only after page k has been yielded. -/
theorem iteratePages_chain_yields_in_order {ρ ε : Type}
    (p : AthenaQueryResultPager ρ ε) (qid : String)
    (outs : List (GetQueryResultsCommandOutput ρ)) (fuel : Nat)
    (h : ServesChain p.send qid p.maxResults none outs)
    (hlast : ∀ lo ∈ outs.getLast?, lo.NextToken = none)
    (hfuel : outs.length ≤ fuel) :
    p.iteratePagesTrace qid fuel = expectedTrace qid p.maxResults p.parser none outs ∧
    yieldsOf (p.iteratePagesTrace qid fuel) = expectedPages p.parser outs ∧
    (yieldsOf (p.iteratePagesTrace qid fuel)).length = outs.length ∧
    (fetchesOf (p.iteratePagesTrace qid fuel)).length = outs.length ∧
    p.iteratePagesTrace qid fuel =
      interleaveFY (fetchesOf (p.iteratePagesTrace qid fuel))
        (yieldsOf (p.iteratePagesTrace qid fuel)) := by
  obtain ⟨send, mr, qrt, ps⟩ := p
  have htr : iteratePagesAux (AthenaQueryResultPager.mk send mr qrt ps) qid fuel none =
      expectedTrace qid mr ps none outs := iteratePagesAux_chain h qrt ps fuel hfuel
  simp only [AthenaQueryResultPager.iteratePagesTrace]
  rw [htr]
  exact ⟨rfl, yieldsOf_expectedTrace qid mr outs ps none,
    by rw [yieldsOf_expectedTrace]; exact expectedPages_length outs ps,
    fetchesOf_expectedTrace_length qid mr outs ps none,
    expectedTrace_interleave qid mr outs ps none⟩

/-- C1 counterexample: a two-page service chain whose linking continuation
token is the (defined) empty string, leading to page 2.  The claim as
stated predicts 2 yielded pages and 2 fetch requests; `iteratePages`
performs 1 fetch and yields 1 page, because `while (nextToken)` treats the
empty string as falsy. -/
theorem iteratePages_chain_counterexample :
    emptyTokenSend ⟨"q", none, 2⟩ = Except.ok ⟨⟨[0, 1]⟩, some ""⟩ ∧
    emptyTokenSend ⟨"q", some "", 2⟩ = Except.ok ⟨⟨[2, 3]⟩, none⟩ ∧
    (yieldsOf (emptyTokenPager.iteratePagesTrace "q" 2)).length = 1 ∧
    (fetchesOf (emptyTokenPager.iteratePagesTrace "q" 2)).length = 1 ∧
    (yieldsOf (emptyTokenPager.iteratePagesTrace "q" 2)).length ≠ 2 :=
  ⟨rfl, rfl, rfl, rfl, by decide⟩

/-- Witness for C1's theorem: the concrete two-page chain of `chainPager2`
yields 2 pages and issues 2 fetches. -/
theorem iteratePages_chain_yields_in_order_witness :
    (yieldsOf (chainPager2.iteratePagesTrace "q" 2)).length = 2 ∧
    (fetchesOf (chainPager2.iteratePagesTrace "q" 2)).length = 2 :=
  have h := iteratePages_chain_yields_in_order chainPager2 "q"
    [⟨⟨[0, 1]⟩, some "t1"⟩, ⟨⟨[2, 3]⟩, none⟩] 2
    (ServesChain.step none ⟨⟨[0, 1]⟩, some "t1"⟩ [⟨⟨[2, 3]⟩, none⟩] rfl rfl
      (ServesChain.last (some "t1") ⟨⟨[2, 3]⟩, none⟩ rfl rfl))
    (by intro lo hlo; simp at hlo; subst hlo; rfl)
    (by decide)
  ⟨h.2.2.1, h.2.2.2.1⟩

/-! ## C2 -/

/-- C2 (amended: the produced sequence ends with the first page whose
continuation token is not truthy — absent or the empty string — rather than
only with the first page whose token is absent; see the counterexample):
for every service chain whose pages all carry truthy tokens except the last,
the trace of `iteratePages` is independent of the fuel once the fuel covers
the chain (the loop terminates), every issued fetch is matched by a yielded
page (the termination test runs after yielding, never before fetching), at
least one page is yielded, every yielded page before the last carries a
truthy token, and the last yielded page is exactly the first one whose
token is not truthy. -/
theorem iteratePages_terminates_after_first_falsy_token {ρ ε : Type}
    (p : AthenaQueryResultPager ρ ε) (qid : String)
    (outs : List (GetQueryResultsCommandOutput ρ)) (fuel : Nat)
    (h : ServesChain p.send qid p.maxResults none outs)
    (hfuel : outs.length ≤ fuel) :
    p.iteratePagesTrace qid fuel = p.iteratePagesTrace qid outs.length ∧
    (fetchesOf (p.iteratePagesTrace qid fuel)).length =
      (yieldsOf (p.iteratePagesTrace qid fuel)).length ∧
    yieldsOf (p.iteratePagesTrace qid fuel) ≠ [] ∧
    (∀ pg ∈ (yieldsOf (p.iteratePagesTrace qid fuel)).dropLast,
      tokenTruthy pg.nextToken = true) ∧
    (∀ pg ∈ (yieldsOf (p.iteratePagesTrace qid fuel)).getLast?,
      tokenTruthy pg.nextToken = false) := by
  obtain ⟨hne, hdrop, hlastout⟩ := ServesChain_tokens h
  obtain ⟨send, mr, qrt, ps⟩ := p
  have htr : iteratePagesAux (AthenaQueryResultPager.mk send mr qrt ps) qid fuel none =
      expectedTrace qid mr ps none outs := iteratePagesAux_chain h qrt ps fuel hfuel
  have htr2 : iteratePagesAux (AthenaQueryResultPager.mk send mr qrt ps) qid outs.length none =
      expectedTrace qid mr ps none outs :=
    iteratePagesAux_chain h qrt ps outs.length (Nat.le_refl _)
  simp only [AthenaQueryResultPager.iteratePagesTrace]
  rw [htr, htr2]
  refine ⟨rfl, ?_, ?_, ?_, ?_⟩
  · rw [fetchesOf_expectedTrace_length, yieldsOf_expectedTrace, expectedPages_length]
  · rw [yieldsOf_expectedTrace]
    rcases outs with _ | ⟨o, os⟩
    · exact absurd rfl hne
    · simp [expectedPages]
  · intro pg hpg
    rw [yieldsOf_expectedTrace] at hpg
    have hmem : pg.nextToken ∈ ((expectedPages ps outs).dropLast).map PageResult.nextToken :=
      List.mem_map_of_mem PageResult.nextToken hpg
    rw [List.map_dropLast, expectedPages_map_nextToken, ← List.map_dropLast] at hmem
    obtain ⟨out, hout, heq⟩ := List.mem_map.mp hmem
    rw [← heq]
    exact hdrop out hout
  · intro pg hpg
    rw [yieldsOf_expectedTrace] at hpg
    have hmap : ((expectedPages ps outs).map PageResult.nextToken).getLast? =
        (expectedPages ps outs).getLast?.map PageResult.nextToken :=
      List.getLast?_map PageResult.nextToken (expectedPages ps outs)
    rw [expectedPages_map_nextToken, List.getLast?_map] at hmap
    have hpg2 : (expectedPages ps outs).getLast? = some pg := hpg
    rw [hpg2] at hmap
    simp only [Option.map_some'] at hmap
    obtain ⟨out, hout, heq⟩ := Option.map_eq_some'.mp hmap
    rw [← heq]
    exact hlastout out (by rw [hout]; rfl)

/-- C2 counterexample: in the two-page service sequence of `emptyTokenSend`,
page 2 (reached by the empty-string token of page 1) is the first and only
page whose continuation token is absent, yet `iteratePages` ends after
yielding page 1, whose token is the (defined) empty string. -/
theorem iteratePages_last_token_counterexample :
    emptyTokenSend ⟨"q", none, 2⟩ = Except.ok ⟨⟨[0, 1]⟩, some ""⟩ ∧
    emptyTokenSend ⟨"q", some "", 2⟩ = Except.ok ⟨⟨[2, 3]⟩, none⟩ ∧
    (yieldsOf (emptyTokenPager.iteratePagesTrace "q" 2)).map PageResult.nextToken =
      [some ""] :=
  ⟨rfl, rfl, rfl⟩

/-- Witness for C2's theorem at the concrete two-page chain of
`chainPager2`. -/
theorem iteratePages_terminates_after_first_falsy_token_witness :
    chainPager2.iteratePagesTrace "q" 7 = chainPager2.iteratePagesTrace "q" 2 ∧
    yieldsOf (chainPager2.iteratePagesTrace "q" 7) ≠ [] :=
  have h := iteratePages_terminates_after_first_falsy_token chainPager2 "q"
    [⟨⟨[0, 1]⟩, some "t1"⟩, ⟨⟨[2, 3]⟩, none⟩] 7
    (ServesChain.step none ⟨⟨[0, 1]⟩, some "t1"⟩ [⟨⟨[2, 3]⟩, none⟩] rfl rfl
      (ServesChain.last (some "t1") ⟨⟨[2, 3]⟩, none⟩ rfl rfl))
    (by decide)
  ⟨h.1, h.2.2.1⟩

/-! ## Step lemmas for `fetchPageWith` and its loop -/

theorem fetchPageWith_ok {ρ ε τ : Type} (p : AthenaQueryResultPager ρ ε)
    (qid : String) (rowParser : ρ → Except ε τ) (tok : Option String)
    (out : GetQueryResultsCommandOutput ρ) (rows : List τ)
    (h : p.send ⟨qid, tok, p.maxResults⟩ = Except.ok out)
    (hrows : (p.parser.parseResultSetWith out.ResultSet rowParser).1 = Except.ok rows) :
    p.fetchPageWith qid rowParser tok =
      (Except.ok ⟨rows, out.NextToken, rows.length⟩,
       { p with parser := (p.parser.parseResultSetWith out.ResultSet rowParser).2 }) := by
  simp only [AthenaQueryResultPager.fetchPageWith, h, hrows]

theorem fetchPageWith_err_send {ρ ε τ : Type} (p : AthenaQueryResultPager ρ ε)
    (qid : String) (rowParser : ρ → Except ε τ) (tok : Option String) (e : ε)
    (h : p.send ⟨qid, tok, p.maxResults⟩ = Except.error e) :
    p.fetchPageWith qid rowParser tok = (Except.error e, p) := by
  simp only [AthenaQueryResultPager.fetchPageWith]
  rw [h]

theorem fetchPageWith_err_parse {ρ ε τ : Type} (p : AthenaQueryResultPager ρ ε)
    (qid : String) (rowParser : ρ → Except ε τ) (tok : Option String)
    (out : GetQueryResultsCommandOutput ρ) (e : ε)
    (h : p.send ⟨qid, tok, p.maxResults⟩ = Except.ok out)
    (hrows : (p.parser.parseResultSetWith out.ResultSet rowParser).1 = Except.error e) :
    p.fetchPageWith qid rowParser tok =
      (Except.error e,
       { p with parser := (p.parser.parseResultSetWith out.ResultSet rowParser).2 }) := by
  simp only [AthenaQueryResultPager.fetchPageWith, h, hrows]

theorem iteratePagesWithAux_succ_ok {ρ ε τ : Type} (p p2 : AthenaQueryResultPager ρ ε)
    (qid : String) (rowParser : ρ → Except ε τ) (fuel : Nat) (tok : Option String)
    (page : PageResult τ)
    (h : p.fetchPageWith qid rowParser tok = (Except.ok page, p2)) :
    iteratePagesWithAux p qid rowParser (fuel + 1) tok =
      Event.fetch ⟨qid, tok, p.maxResults⟩ :: Event.yielded page ::
      (if tokenTruthy page.nextToken then iteratePagesWithAux p2 qid rowParser fuel page.nextToken
       else []) := by
  simp only [iteratePagesWithAux]
  rw [h]

theorem iteratePagesWithAux_succ_err {ρ ε τ : Type} (p p2 : AthenaQueryResultPager ρ ε)
    (qid : String) (rowParser : ρ → Except ε τ) (fuel : Nat) (tok : Option String) (e : ε)
    (h : p.fetchPageWith qid rowParser tok = (Except.error e, p2)) :
    iteratePagesWithAux p qid rowParser (fuel + 1) tok =
      [Event.fetch ⟨qid, tok, p.maxResults⟩, Event.failed e] := by
  simp only [iteratePagesWithAux]
  rw [h]

/-! ## C3 -/

/-- C3: when the service answers the first request with a single empty page
(no rows, no continuation token), `iteratePages` yields exactly one page
result with `rows = []`, `rowCount = 0` and no continuation token — never
zero pages — and the trace is exactly one fetch request followed by that one
yielded page. -/
theorem iteratePages_single_empty_page {ρ ε : Type}
    (p : AthenaQueryResultPager ρ ε) (qid : String) (fuel : Nat)
    (hsend : p.send ⟨qid, none, p.maxResults⟩ = Except.ok ⟨⟨[]⟩, none⟩)
    (hfuel : 1 ≤ fuel) :
    p.iteratePagesTrace qid fuel =
      [Event.fetch ⟨qid, none, p.maxResults⟩, Event.yielded ⟨[], none, 0⟩] ∧
    yieldsOf (p.iteratePagesTrace qid fuel) = [⟨[], none, 0⟩] := by
  cases fuel with
  | zero => exact absurd hfuel (by decide)
  | succ f =>
    simp only [AthenaQueryResultPager.iteratePagesTrace]
    rw [iteratePagesAux_succ_ok _ _ _ _ _ _ (fetchPage_ok _ _ _ _ hsend)]
    have hrows : (p.parser.parseResultSet (⟨[]⟩ : ResultSet ρ)).1 = [] := by
      simp only [AthenaQueryResultParser.parseResultSet]
      cases p.parser.headerSeen <;> simp
    simp [tokenTruthy, hrows, yieldsOf]

/-- A service that always returns a single empty page. -/
def singleEmptySend : GetQueryResultsCommandInput → Except Unit (GetQueryResultsCommandOutput Nat) :=
  fun _ => Except.ok ⟨⟨[]⟩, none⟩

/-- A pager over `singleEmptySend` with `maxResults = 3`. -/
def singleEmptyPager : AthenaQueryResultPager Nat Unit :=
  AthenaQueryResultPager.mk singleEmptySend 3 "DATA_ROWS" AthenaQueryResultParser.new

/-- Witness for C3's theorem at the concrete single-empty-page service. -/
theorem iteratePages_single_empty_page_witness :
    singleEmptyPager.iteratePagesTrace "q" 1 =
      [Event.fetch ⟨"q", none, 3⟩, Event.yielded ⟨[], none, 0⟩] :=
  (iteratePages_single_empty_page singleEmptyPager "q" 1 rfl (by decide)).1

/-! ## C4 -/

theorem fetchPage_ok_inv {ρ ε : Type} (p p2 : AthenaQueryResultPager ρ ε)
    (qid : String) (tok : Option String) (pg : PageResult ρ)
    (h : p.fetchPage qid tok = (Except.ok pg, p2)) : pg.rowCount = pg.rows.length := by
  simp only [AthenaQueryResultPager.fetchPage] at h
  cases hs : p.send ⟨qid, tok, p.maxResults⟩ with
  | error e => rw [hs] at h; simp at h
  | ok out =>
    rw [hs] at h
    simp only [Prod.mk.injEq, Except.ok.injEq] at h
    rw [← h.1]

theorem fetchPageWith_ok_inv {ρ ε τ : Type} (p p2 : AthenaQueryResultPager ρ ε)
    (qid : String) (rowParser : ρ → Except ε τ) (tok : Option String) (pg : PageResult τ)
    (h : p.fetchPageWith qid rowParser tok = (Except.ok pg, p2)) :
    pg.rowCount = pg.rows.length := by
  simp only [AthenaQueryResultPager.fetchPageWith] at h
  cases hs : p.send ⟨qid, tok, p.maxResults⟩ with
  | error e => rw [hs] at h; simp at h
  | ok out =>
    rw [hs] at h
    simp only [] at h
    cases hr : (p.parser.parseResultSetWith out.ResultSet rowParser).1 with
    | error e => rw [hr] at h; simp at h
    | ok rows =>
      rw [hr] at h
      simp only [Prod.mk.injEq, Except.ok.injEq] at h
      rw [← h.1]

theorem yieldsOf_iteratePagesAux_rowCount {ρ ε : Type} :
    ∀ (fuel : Nat) (p : AthenaQueryResultPager ρ ε) (qid : String) (tok : Option String)
      (pg : PageResult ρ), pg ∈ yieldsOf (iteratePagesAux p qid fuel tok) →
        pg.rowCount = pg.rows.length := by
  intro fuel
  induction fuel with
  | zero => intro p qid tok pg hm; simp [iteratePagesAux, yieldsOf] at hm
  | succ f ih =>
    intro p qid tok pg hm
    rcases hfp : p.fetchPage qid tok with ⟨res, p2⟩
    cases res with
    | error e =>
      rw [iteratePagesAux_succ_err p p2 qid f tok e hfp] at hm
      simp [yieldsOf] at hm
    | ok page =>
      rw [iteratePagesAux_succ_ok p p2 qid f tok page hfp] at hm
      simp only [yieldsOf] at hm
      rcases List.mem_cons.mp hm with heq | hm2
      · rw [heq]; exact fetchPage_ok_inv p p2 qid tok page hfp
      · split at hm2
        · exact ih p2 qid page.nextToken pg hm2
        · simp [yieldsOf] at hm2

theorem yieldsOf_iteratePagesWithAux_rowCount {ρ ε τ : Type} :
    ∀ (fuel : Nat) (p : AthenaQueryResultPager ρ ε) (qid : String)
      (rowParser : ρ → Except ε τ) (tok : Option String) (pg : PageResult τ),
      pg ∈ yieldsOf (iteratePagesWithAux p qid rowParser fuel tok) →
        pg.rowCount = pg.rows.length := by
  intro fuel
  induction fuel with
  | zero => intro p qid rowParser tok pg hm; simp [iteratePagesWithAux, yieldsOf] at hm
  | succ f ih =>
    intro p qid rowParser tok pg hm
    rcases hfp : p.fetchPageWith qid rowParser tok with ⟨res, p2⟩
    cases res with
    | error e =>
      rw [iteratePagesWithAux_succ_err p p2 qid rowParser f tok e hfp] at hm
      simp [yieldsOf] at hm
    | ok page =>
      rw [iteratePagesWithAux_succ_ok p p2 qid rowParser f tok page hfp] at hm
      simp only [yieldsOf] at hm
      rcases List.mem_cons.mp hm with heq | hm2
      · rw [heq]; exact fetchPageWith_ok_inv p p2 qid rowParser tok page hfp
      · split at hm2
        · exact ih p2 qid rowParser page.nextToken pg hm2
        · simp [yieldsOf] at hm2

/-- C4: every page result ever produced — returned by `fetchPage` or
`fetchPageWith`, or yielded along an `iteratePages` / `iteratePagesWith`
trace — satisfies `rowCount = rows.length` exactly. -/
theorem pageResult_rowCount_eq_rows_length {ρ ε τ : Type} :
    (∀ (p p2 : AthenaQueryResultPager ρ ε) (qid : String) (tok : Option String)
      (pg : PageResult ρ), p.fetchPage qid tok = (Except.ok pg, p2) →
        pg.rowCount = pg.rows.length) ∧
    (∀ (p p2 : AthenaQueryResultPager ρ ε) (qid : String) (rowParser : ρ → Except ε τ)
      (tok : Option String) (pg : PageResult τ),
        p.fetchPageWith qid rowParser tok = (Except.ok pg, p2) →
        pg.rowCount = pg.rows.length) ∧
    (∀ (p : AthenaQueryResultPager ρ ε) (qid : String) (fuel : Nat) (pg : PageResult ρ),
        pg ∈ yieldsOf (p.iteratePagesTrace qid fuel) → pg.rowCount = pg.rows.length) ∧
    (∀ (p : AthenaQueryResultPager ρ ε) (qid : String) (rowParser : ρ → Except ε τ)
      (fuel : Nat) (pg : PageResult τ),
        pg ∈ yieldsOf (p.iteratePagesWithTrace qid rowParser fuel) →
        pg.rowCount = pg.rows.length) :=
  ⟨fun p p2 qid tok pg h => fetchPage_ok_inv p p2 qid tok pg h,
   fun p p2 qid rowParser tok pg h => fetchPageWith_ok_inv p p2 qid rowParser tok pg h,
   fun p qid fuel pg hm => yieldsOf_iteratePagesAux_rowCount fuel p qid none pg hm,
   fun p qid rowParser fuel pg hm =>
     yieldsOf_iteratePagesWithAux_rowCount fuel p qid rowParser none pg hm⟩

/-- Witness for C4's theorem: its first component applied to a concrete
`fetchPage` call. -/
theorem pageResult_rowCount_eq_rows_length_witness :
    (⟨[], none, 0⟩ : PageResult Nat).rowCount = (⟨[], none, 0⟩ : PageResult Nat).rows.length :=
  (@pageResult_rowCount_eq_rows_length Nat Unit Nat).1 singleEmptyPager
    (AthenaQueryResultPager.mk singleEmptySend 3 "DATA_ROWS" ⟨true⟩) "q" none
    ⟨[], none, 0⟩ rfl

/-! ## C5 -/

/-- C5 counterexample: a page result whose continuation token is the empty
string — the empty marker, hence not "present" in the claim's sense — for
which `hasNextPage` nevertheless returns `true`. -/
theorem hasNextPage_empty_token_counterexample :
    AthenaQueryResultPager.hasNextPage (⟨[], some "", 0⟩ : PageResult Nat) = true ∧
    (⟨[], some "", 0⟩ : PageResult Nat).nextToken = some "" :=
  ⟨rfl, rfl⟩

/-- C5 (amended: `hasNextPage` returns true iff the continuation token is
defined — i.e. not absent — which includes the empty-string token, rather
than iff it is present-and-not-the-empty-marker): for every page result of
any row type, including one with zero rows, `hasNextPage p` is true exactly
when `p.nextToken` is not absent. -/
theorem hasNextPage_iff_token_defined {T : Type} (p : PageResult T) :
    AthenaQueryResultPager.hasNextPage p = true ↔ p.nextToken ≠ none := by
  rcases p with ⟨rows, tok, cnt⟩
  cases tok <;> simp [AthenaQueryResultPager.hasNextPage]

/-! ## C6 -/

/-- C6: `reset()` replaces the pager's parser with a freshly initialized one
whose header-seen flag is cleared; consequently, after `reset()`, a
`fetchPage` for a different query execution id whose response carries that
query's header row followed by one data row yields exactly the one data row
(`rowCount = 1`) — while the same fetch without the reset, the stale parser
believing the header already consumed, would yield two rows. -/
theorem reset_clears_header_state {ρ ε : Type} (p : AthenaQueryResultPager ρ ε)
    (qid2 : String) (h d : ρ)
    (hseen : p.parser.headerSeen = true)
    (hsend : p.send ⟨qid2, none, p.maxResults⟩ = Except.ok ⟨⟨[h, d]⟩, none⟩) :
    p.reset.parser = AthenaQueryResultParser.new ∧
    p.reset.parser.headerSeen = false ∧
    (p.reset.fetchPage qid2 none).1 = Except.ok ⟨[d], none, 1⟩ ∧
    (p.fetchPage qid2 none).1 = Except.ok ⟨[h, d], none, 2⟩ := by
  refine ⟨rfl, rfl, ?_, ?_⟩
  · rw [fetchPage_ok p.reset qid2 none ⟨⟨[h, d]⟩, none⟩ hsend]
    simp [AthenaQueryResultPager.reset, AthenaQueryResultParser.parseResultSet,
      AthenaQueryResultParser.new]
  · rw [fetchPage_ok p qid2 none ⟨⟨[h, d]⟩, none⟩ hsend]
    simp [AthenaQueryResultParser.parseResultSet, hseen]

/-- A service whose page is a header row followed by one data row. -/
def headerRowSend : GetQueryResultsCommandInput → Except Unit (GetQueryResultsCommandOutput Nat) :=
  fun _ => Except.ok ⟨⟨[10, 20]⟩, none⟩

/-- A pager over `headerRowSend` whose parser has already consumed a header
for a previous query. -/
def staleParserPager : AthenaQueryResultPager Nat Unit :=
  AthenaQueryResultPager.mk headerRowSend 4 "DATA_ROWS" ⟨true⟩

/-- Witness for C6's theorem at the concrete stale-parser pager. -/
theorem reset_clears_header_state_witness :
    (staleParserPager.reset.fetchPage "q2" none).1 = Except.ok ⟨[20], none, 1⟩ ∧
    (staleParserPager.fetchPage "q2" none).1 = Except.ok ⟨[10, 20], none, 2⟩ :=
  have hh := reset_clears_header_state staleParserPager "q2" 10 20 rfl rfl
  ⟨hh.2.2.1, hh.2.2.2⟩

/-! ## C7 -/

/-- C7: `iterateRows` yields exactly the concatenation of the rows of the
pages produced by `iteratePagesWith`, in page order and within-page order,
for every row type. -/
theorem iterateRows_concat_of_pages {ρ ε τ : Type} (p : AthenaQueryResultPager ρ ε)
    (qid : String) (rowParser : ρ → Except ε τ) (fuel : Nat) :
    p.iterateRowsList qid rowParser fuel =
      ((p.iteratePagesWithList qid rowParser fuel).map PageResult.rows).flatten := by
  simp only [AthenaQueryResultPager.iterateRowsList]
  generalize p.iteratePagesWithList qid rowParser fuel = pages
  induction pages with
  | nil => simp [yieldRowsOf]
  | cons pg rest ih => simp [yieldRowsOf, ih]

/-! ## C8 -/

/-- C8: errors are propagated to the caller unchanged and abort the
iteration: a service error surfaces as-is from `fetchPage` and
`fetchPageWith`, a row-parser error surfaces as-is from `fetchPageWith`,
and when a fetch fails inside `iteratePages` / `iteratePagesWith` the trace
ends with that failure — no further fetch is issued and no further page is
yielded after it. -/
theorem errors_propagate_unchanged {ρ ε τ : Type} :
    (∀ (p : AthenaQueryResultPager ρ ε) (qid : String) (tok : Option String) (e : ε),
      p.send ⟨qid, tok, p.maxResults⟩ = Except.error e →
      p.fetchPage qid tok = (Except.error e, p)) ∧
    (∀ (p : AthenaQueryResultPager ρ ε) (qid : String) (rowParser : ρ → Except ε τ)
      (tok : Option String) (e : ε),
      p.send ⟨qid, tok, p.maxResults⟩ = Except.error e →
      p.fetchPageWith qid rowParser tok = (Except.error e, p)) ∧
    (∀ (p : AthenaQueryResultPager ρ ε) (qid : String) (rowParser : ρ → Except ε τ)
      (tok : Option String) (out : GetQueryResultsCommandOutput ρ) (e : ε),
      p.send ⟨qid, tok, p.maxResults⟩ = Except.ok out →
      (p.parser.parseResultSetWith out.ResultSet rowParser).1 = Except.error e →
      (p.fetchPageWith qid rowParser tok).1 = Except.error e) ∧
    (∀ (p p2 : AthenaQueryResultPager ρ ε) (qid : String) (fuel : Nat)
      (tok : Option String) (e : ε), p.fetchPage qid tok = (Except.error e, p2) →
      iteratePagesAux p qid (fuel + 1) tok =
        [Event.fetch ⟨qid, tok, p.maxResults⟩, Event.failed e]) ∧
    (∀ (p p2 : AthenaQueryResultPager ρ ε) (qid : String) (rowParser : ρ → Except ε τ)
      (fuel : Nat) (tok : Option String) (e : ε),
      p.fetchPageWith qid rowParser tok = (Except.error e, p2) →
      iteratePagesWithAux p qid rowParser (fuel + 1) tok =
        [Event.fetch ⟨qid, tok, p.maxResults⟩, Event.failed e]) := by
  refine ⟨?_, ?_, ?_, ?_, ?_⟩
  · intro p qid tok e hs
    exact fetchPage_err p qid tok e hs
  · intro p qid rowParser tok e hs
    exact fetchPageWith_err_send p qid rowParser tok e hs
  · intro p qid rowParser tok out e hs hr
    rw [fetchPageWith_err_parse p qid rowParser tok out e hs hr]
  · intro p p2 qid fuel tok e hf
    exact iteratePagesAux_succ_err p p2 qid fuel tok e hf
  · intro p p2 qid rowParser fuel tok e hf
    exact iteratePagesWithAux_succ_err p p2 qid rowParser fuel tok e hf

/-- A service that always fails with the error `"boom"`. -/
def failSend : GetQueryResultsCommandInput → Except String (GetQueryResultsCommandOutput Nat) :=
  fun _ => Except.error "boom"

/-- A pager over `failSend`. -/
def failPager : AthenaQueryResultPager Nat String :=
  AthenaQueryResultPager.mk failSend 1 "DATA_ROWS" AthenaQueryResultParser.new

/-- Witness for C8's theorem at the concrete failing service. -/
theorem errors_propagate_unchanged_witness :
    failPager.fetchPage "q" none = (Except.error "boom", failPager) ∧
    iteratePagesAux failPager "q" 3 none =
      [Event.fetch ⟨"q", none, 1⟩, Event.failed "boom"] :=
  have hc := @errors_propagate_unchanged Nat String Nat
  ⟨hc.1 failPager "q" none "boom" rfl,
   hc.2.2.2.1 failPager failPager "q" 2 none "boom" (hc.1 failPager "q" none "boom" rfl)⟩

/-! ## C9 -/

/-- C9: for a first page whose next-page token is the (defined) empty
string, `hasNextPage` on the yielded page returns true, yet `iteratePages`
and `iteratePagesWith` stop after yielding that page and issue no further
fetch, because the `while (nextToken)` continuation test treats the
empty-string token as terminal; manual pagination via `hasNextPage` and
generator pagination therefore disagree on such a page. -/
theorem emptyToken_hasNextPage_but_iteration_stops {ρ ε τ : Type}
    (p : AthenaQueryResultPager ρ ε) (qid : String)
    (out : GetQueryResultsCommandOutput ρ) (rowParser : ρ → Except ε τ)
    (rows2 : List τ) (fuel : Nat)
    (hsend : p.send ⟨qid, none, p.maxResults⟩ = Except.ok out)
    (htok : out.NextToken = some "")
    (hrows2 : (p.parser.parseResultSetWith out.ResultSet rowParser).1 = Except.ok rows2) :
    p.iteratePagesTrace qid (fuel + 1) =
      [Event.fetch ⟨qid, none, p.maxResults⟩,
       Event.yielded ⟨(p.parser.parseResultSet out.ResultSet).1, some "",
                      (p.parser.parseResultSet out.ResultSet).1.length⟩] ∧
    AthenaQueryResultPager.hasNextPage
      (⟨(p.parser.parseResultSet out.ResultSet).1, some "",
        (p.parser.parseResultSet out.ResultSet).1.length⟩ : PageResult ρ) = true ∧
    p.iteratePagesWithTrace qid rowParser (fuel + 1) =
      [Event.fetch ⟨qid, none, p.maxResults⟩,
       Event.yielded ⟨rows2, some "", rows2.length⟩] ∧
    AthenaQueryResultPager.hasNextPage
      (⟨rows2, some "", rows2.length⟩ : PageResult τ) = true := by
  refine ⟨?_, rfl, ?_, rfl⟩
  · simp only [AthenaQueryResultPager.iteratePagesTrace]
    rw [iteratePagesAux_succ_ok _ _ _ _ _ _ (fetchPage_ok _ _ _ _ hsend)]
    rw [htok]
    simp [show tokenTruthy (some "") = false from rfl]
  · simp only [AthenaQueryResultPager.iteratePagesWithTrace]
    rw [iteratePagesWithAux_succ_ok _ _ _ _ _ _ _
      (fetchPageWith_ok _ _ _ _ _ _ hsend hrows2)]
    rw [htok]
    simp [show tokenTruthy (some "") = false from rfl]

/-- Witness for C9's theorem at the concrete empty-string-token service. -/
theorem emptyToken_hasNextPage_but_iteration_stops_witness :
    emptyTokenPager.iteratePagesTrace "q" 1 =
      [Event.fetch ⟨"q", none, 2⟩, Event.yielded ⟨[1], some "", 1⟩] ∧
    AthenaQueryResultPager.hasNextPage (⟨[1], some "", 1⟩ : PageResult Nat) = true :=
  have hh := emptyToken_hasNextPage_but_iteration_stops emptyTokenPager "q"
    ⟨⟨[0, 1]⟩, some ""⟩ (fun n => Except.ok n) [1] 0 rfl rfl rfl
  ⟨hh.1, hh.2.1⟩

/-! ## C10 -/

theorem iteratePagesAux_qrt_irrel {ρ ε : Type}
    (send : GetQueryResultsCommandInput → Except ε (GetQueryResultsCommandOutput ρ))
    (mr : Nat) (qrt1 qrt2 : String) (qid : String) :
    ∀ (fuel : Nat) (ps : AthenaQueryResultParser) (tok : Option String),
      iteratePagesAux (AthenaQueryResultPager.mk send mr qrt1 ps) qid fuel tok =
        iteratePagesAux (AthenaQueryResultPager.mk send mr qrt2 ps) qid fuel tok := by
  intro fuel
  induction fuel with
  | zero => intro ps tok; rfl
  | succ f ih =>
    intro ps tok
    cases hs : send ⟨qid, tok, mr⟩ with
    | error e =>
      rw [iteratePagesAux_succ_err _ _ qid f tok e (fetchPage_err _ qid tok e hs),
          iteratePagesAux_succ_err _ _ qid f tok e (fetchPage_err _ qid tok e hs)]
    | ok out =>
      rw [iteratePagesAux_succ_ok _ _ qid f tok _ (fetchPage_ok _ qid tok out hs),
          iteratePagesAux_succ_ok _ _ qid f tok _ (fetchPage_ok _ qid tok out hs)]
      cases hb : tokenTruthy out.NextToken with
      | false => simp [hb]
      | true => simp only [hb, if_true]; rw [ih]

/-- C10: the `queryResultType` option has no effect on behaviour: two pagers
identical except for `queryResultType` build equal service requests — the
request type `GetQueryResultsCommandInput` has exactly the fields
`QueryExecutionId`, `NextToken` and `MaxResults`, so no result-format field
is ever sent — and given the same service, produce identical
`fetchPage` / `fetchPageWith` results, identical parser states, and
identical `iteratePages` traces. -/
theorem queryResultType_no_effect {ρ ε τ : Type}
    (send : GetQueryResultsCommandInput → Except ε (GetQueryResultsCommandOutput ρ))
    (mr : Nat) (qrt1 qrt2 : String) (ps : AthenaQueryResultParser)
    (qid : String) (rowParser : ρ → Except ε τ) (tok : Option String) :
    ((AthenaQueryResultPager.mk send mr qrt1 ps).fetchPage qid tok).1 =
      ((AthenaQueryResultPager.mk send mr qrt2 ps).fetchPage qid tok).1 ∧
    ((AthenaQueryResultPager.mk send mr qrt1 ps).fetchPage qid tok).2.parser =
      ((AthenaQueryResultPager.mk send mr qrt2 ps).fetchPage qid tok).2.parser ∧
    ((AthenaQueryResultPager.mk send mr qrt1 ps).fetchPageWith qid rowParser tok).1 =
      ((AthenaQueryResultPager.mk send mr qrt2 ps).fetchPageWith qid rowParser tok).1 ∧
    ((AthenaQueryResultPager.mk send mr qrt1 ps).fetchPageWith qid rowParser tok).2.parser =
      ((AthenaQueryResultPager.mk send mr qrt2 ps).fetchPageWith qid rowParser tok).2.parser ∧
    (∀ fuel : Nat,
      (AthenaQueryResultPager.mk send mr qrt1 ps).iteratePagesTrace qid fuel =
        (AthenaQueryResultPager.mk send mr qrt2 ps).iteratePagesTrace qid fuel) ∧
    (⟨qid, tok, (AthenaQueryResultPager.mk send mr qrt1 ps).maxResults⟩ :
        GetQueryResultsCommandInput) =
      ⟨qid, tok, (AthenaQueryResultPager.mk send mr qrt2 ps).maxResults⟩ := by
  refine ⟨?_, ?_, ?_, ?_,
    fun fuel => iteratePagesAux_qrt_irrel send mr qrt1 qrt2 qid fuel ps none, rfl⟩
  · cases hs : send ⟨qid, tok, mr⟩ with
    | error e => rw [fetchPage_err _ qid tok e hs, fetchPage_err _ qid tok e hs]
    | ok out => rw [fetchPage_ok _ qid tok out hs, fetchPage_ok _ qid tok out hs]
  · cases hs : send ⟨qid, tok, mr⟩ with
    | error e => rw [fetchPage_err _ qid tok e hs, fetchPage_err _ qid tok e hs]
    | ok out => rw [fetchPage_ok _ qid tok out hs, fetchPage_ok _ qid tok out hs]
  · cases hs : send ⟨qid, tok, mr⟩ with
    | error e =>
      rw [fetchPageWith_err_send _ qid rowParser tok e hs,
          fetchPageWith_err_send _ qid rowParser tok e hs]
    | ok out =>
      cases hr : (ps.parseResultSetWith out.ResultSet rowParser).1 with
      | error e =>
        rw [fetchPageWith_err_parse _ qid rowParser tok out e hs hr,
            fetchPageWith_err_parse _ qid rowParser tok out e hs hr]
      | ok rows =>
        rw [fetchPageWith_ok _ qid rowParser tok out rows hs hr,
            fetchPageWith_ok _ qid rowParser tok out rows hs hr]
  · cases hs : send ⟨qid, tok, mr⟩ with
    | error e =>
      rw [fetchPageWith_err_send _ qid rowParser tok e hs,
          fetchPageWith_err_send _ qid rowParser tok e hs]
    | ok out =>
      cases hr : (ps.parseResultSetWith out.ResultSet rowParser).1 with
      | error e =>
        rw [fetchPageWith_err_parse _ qid rowParser tok out e hs hr,
            fetchPageWith_err_parse _ qid rowParser tok out e hs hr]
      | ok rows =>
        rw [fetchPageWith_ok _ qid rowParser tok out rows hs hr,
            fetchPageWith_ok _ qid rowParser tok out rows hs hr]
